import Mathlib

/-!
Shallow embedding of the `apir` Go package (github.com/syndio/apir):
`pkg/requester` (Client, API registry, request builder, executor,
JSON/file codecs) and `pkg/discoverer` (Direct discoverer).

Go strings are Lean `String`; URLs are manipulated as `List Char` to
mirror `strings.TrimLeft`/`strings.TrimRight` with cutset "/".
Go `interface{}` decode sinks are modelled by an abstract `Sink` record
carrying the externally-determined outcomes of the runtime operations
the codecs perform on them (`io.Writer` type assertion, JSON decode of
the response body into the sink, `io.Copy` of the body into the sink).
`nil` sinks are `Option.none`.  The `*http.Client.Do` call is modelled
by an `Option HttpResponse` argument (`none` = transport failure).
Pointers to `http.Client` objects are modelled by a `World` heap of
numeric addresses, with address `defaultClientPtr` playing the role of
the process-global `http.DefaultClient`.
-/

namespace Apir

/-- ContentType is an http Content-Type value (Go: `type ContentType string`). -/
def ContentType := String

/-- ApplicationJSON is the application/json Content-Type. -/
def ApplicationJSON : String := "application/json"

/-- TextCSV is the text/csv Content-Type. -/
def TextCSV : String := "text/csv"

/-- Direct implements the Discoverer interface and just returns the given URL directly
(Go: `pkg/discoverer/direct.go`). -/
structure Direct where
  url : String
deriving DecidableEq, Repr

/-- NewDirect initializes a new Direct Discoverer with the given base URL. -/
def NewDirect (url : String) : Direct := { url := url }

/-- URL implements the Discoverer.URL method returning the URL for this Discoverer. -/
def Direct.URL (d : Direct) : String := d.url

/-- API defines an API and is embedded in a Client via MustAddAPI.
The embedded Discoverer is the repository's only implementation, `Direct`. -/
structure API where
  discoverer : Direct
  contentType : String
deriving DecidableEq, Repr

/-- URL of an API delegates to the embedded Discoverer. -/
def API.URL (a : API) : String := a.discoverer.URL

/-- APIOption defines configuration options for an API (Go: `func(*API)`). -/
def APIOption := API → API

/-- WithContentType sets the ContentType for an API. -/
def WithContentType (ct : String) : APIOption := fun api => { api with contentType := ct }

/-- HTTPClient models the fields of Go `*http.Client` relevant here
(`Timeout`, a `time.Duration`, i.e. an int64 of nanoseconds). -/
structure HTTPClient where
  timeout : Int
deriving DecidableEq, Repr

/-- World is the heap of `*http.Client` objects: numeric addresses mapped to
`HTTPClient` records, plus a fresh-allocation counter. -/
structure World where
  heap : Nat → HTTPClient
  next : Nat

/-- defaultClientPtr is the address of the process-global `http.DefaultClient`. -/
def defaultClientPtr : Nat := 0

/-- heapUpdate writes a value at one address of the heap. -/
def heapUpdate (h : Nat → HTTPClient) (p : Nat) (v : HTTPClient) : Nat → HTTPClient :=
  fun q => if q = p then v else h q

/-- Client implements the Requester interface (Go: `requester.Client`).
`clientPtr` is the address of the `*http.Client` field; `apis` is the
`map[string]*API` as an association list (later insertions in front). -/
structure Client where
  name : String
  clientPtr : Nat
  apis : List (String × API)

/-- ClientOption defines configuration options for a Client.  The three
constructors of the package (`WithClient`, `WithRetry`, `WithTimeout`)
are deep-embedded so that "the option list contains no WithClient or
WithRetry" is a statable hypothesis. -/
inductive ClientOption where
  | withClient (ptr : Nat)
  | withRetry
  | withTimeout (t : Int)
deriving DecidableEq, Repr

/-- applyClientOption interprets a ClientOption as the Go closure does:
`WithClient` replaces the client pointer; `WithRetry` allocates a fresh
retry-configured `*http.Client` and points to it; `WithTimeout` mutates
the `Timeout` field of whatever `*http.Client` object the Client
currently points to, in place on the heap. -/
def applyClientOption : ClientOption → Client × World → Client × World
  | .withClient p, (c, w) => ({ c with clientPtr := p }, w)
  | .withRetry, (c, w) =>
      ({ c with clientPtr := w.next },
       { heap := heapUpdate w.heap w.next { timeout := 0 }, next := w.next + 1 })
  | .withTimeout t, (c, w) =>
      (c, { w with heap := heapUpdate w.heap c.clientPtr { timeout := t } })

/-- NewClient creates a new Client with sane defaults and applies any given
ClientOption methods.  The default `client` field is the process-global
`http.DefaultClient`, i.e. the address `defaultClientPtr`. -/
def NewClient (name : String) (options : List ClientOption) (w : World) : Client × World :=
  options.foldl (fun cw o => applyClientOption o cw)
    ({ name := name, clientPtr := defaultClientPtr, apis := [] }, w)

/-- MustAddAPI adds an API with the given name and Discoverer to the Client applying
any given APIOption methods.  The Go function panics when the name is already
present; the panic is modelled as `some message` in the second component, with
the Client returned unchanged (the duplicate check precedes any mutation).
When the WithContentType option was not applied the default ApplicationJSON is set. -/
def Client.MustAddAPI (c : Client) (name : String) (discoverer : Direct)
    (options : List APIOption) : Client × Option String :=
  if (c.apis.lookup name).isSome then
    (c, some ("api " ++ name ++ " already initialized"))
  else
    let api := options.foldl (fun a o => o a) { discoverer := discoverer, contentType := "" }
    let api := if api.contentType = "" then { api with contentType := ApplicationJSON } else api
    ({ c with apis := (name, api) :: c.apis }, none)

/-- trimRight is Go `strings.TrimRight(s, cutset)` for a one-character cutset:
it removes all trailing occurrences of the character. -/
def trimRight (cut : Char) (s : List Char) : List Char :=
  (s.reverse.dropWhile (fun x => x == cut)).reverse

/-- trimLeft is Go `strings.TrimLeft(s, cutset)` for a one-character cutset:
it removes all leading occurrences of the character. -/
def trimLeft (cut : Char) (s : List Char) : List Char :=
  s.dropWhile (fun x => x == cut)

/-- composeURL is the URL composition performed by Client.NewRequest:
`fmt.Sprintf("%s/%s", strings.TrimRight(api.URL(), "/"), strings.TrimLeft(url, "/"))`. -/
def composeURL (base path : List Char) : List Char :=
  trimRight '/' base ++ '/' :: trimLeft '/' path

/-- HttpRequestModel models the `*http.Request` produced by `http.NewRequest`:
method, composed URL, body presence, and headers (with `Header.Set`
replace-semantics). -/
structure HttpRequestModel where
  method : String
  url : List Char
  hasBody : Bool
  headers : List (String × String)
deriving DecidableEq, Repr

/-- headerSet models `http.Header.Set`: replaces any existing value for the key. -/
def headerSet (hs : List (String × String)) (k v : String) : List (String × String) :=
  (hs.filter (fun kv => kv.1 ≠ k)) ++ [(k, v)]

/-- headerGet models `http.Header.Get`: the value set for the key, if any. -/
def headerGet (hs : List (String × String)) (k : String) : Option String :=
  hs.lookup k

/-- Request defines a http request to be made to an API (Go struct `Request`):
the target API, the `userAgent` string field, and the embedded `*http.Request`. -/
structure Request where
  api : API
  userAgent : String
  httpReq : HttpRequestModel
deriving DecidableEq, Repr

/-- RequestOption defines configuration options for a Request.  The package's
only constructor, `WithUserAgent`, is deep-embedded. -/
inductive RequestOption where
  | withUserAgent (ua : String)
deriving DecidableEq, Repr

/-- applyRequestOption interprets a RequestOption as the Go closure does:
`WithUserAgent` sets the `userAgent` field of the `Request` struct
(it does not touch the embedded `*http.Request` headers). -/
def applyRequestOption : RequestOption → Request → Request
  | .withUserAgent ua, r => { r with userAgent := ua }

/-- NewRequest creates a new Request for the given inputs applying any given
RequestOption methods.  `hasBody` models `body != nil`.  URL-parse failure of
`http.NewRequest` is not modelled (the composed URL and headers are computed
regardless and are what the claims are about). -/
def Client.NewRequest (c : Client) (apiName method url : String) (hasBody : Bool)
    (options : List RequestOption) : Except String Request :=
  match c.apis.lookup apiName with
  | none => .error ("api " ++ apiName ++ " not initialized")
  | some api =>
    let u := composeURL api.URL.toList url.toList
    let req0 : HttpRequestModel := { method := method, url := u, hasBody := hasBody, headers := [] }
    let req1 := if hasBody then
        { req0 with headers := headerSet req0.headers "Content-Type" api.contentType }
      else req0
    let req2 := { req1 with
        headers := headerSet req1.headers "User-Agent" ("kpurdon/apir (for " ++ c.name ++ ")") }
    let r : Request := { api := api, userAgent := "", httpReq := req2 }
    .ok (options.foldl (fun r o => applyRequestOption o r) r)

/-- HttpResponse models the fields of `*http.Response` the codecs read:
the status code and the raw body. -/
structure HttpResponse where
  statusCode : Nat
  body : String
deriving DecidableEq, Repr

/-- Sink models a non-nil `interface{}` decode target, by the outcomes of the
runtime operations the codecs perform on it against the current response:
`isWriter` is the `successData.(io.Writer)` type assertion; `decodeOk` is
whether `json.NewDecoder(resp.Body).Decode(&sink)` succeeds; `copyOk` is
whether `io.Copy(sink, resp.Body)` runs to completion. -/
structure Sink where
  isWriter : Bool
  decodeOk : Bool
  copyOk : Bool
deriving DecidableEq, Repr

/-- GoError mirrors the error values constructed by the package. -/
inductive GoError where
  | transportError
  | decodeErrorData
  | decodeSuccessData
  | httpError (status : Nat) (body : String)
  | invalidSinkType
  | copyError
  | unimplementedContentType (ct : String)
deriving DecidableEq, Repr

/-- DecodeOutcome is the `(bool, error)` pair a codec returns, together with
`bodyRead`, an instrumentation flag recording whether the branch taken
read from `resp.Body` at all. -/
structure DecodeOutcome where
  ok : Bool
  err : Option GoError
  bodyRead : Bool
deriving DecidableEq, Repr

/-- decodeJSON is the JSON codec (Go `decodeJSON`).  `http.StatusBadRequest`
is 400.  On status ≥ 400 with an error sink it decodes into the sink;
without one it builds the `"%d:%s"` error from status and body.  On
status < 400 with a success sink it decodes into the sink; a decode
failure still returns `true`. -/
def decodeJSON (resp : HttpResponse) (successData errorData : Option Sink) : DecodeOutcome :=
  if 400 ≤ resp.statusCode then
    match errorData with
    | some ed =>
        if ed.decodeOk then { ok := false, err := none, bodyRead := true }
        else { ok := false, err := some .decodeErrorData, bodyRead := true }
    | none => { ok := false, err := some (.httpError resp.statusCode resp.body), bodyRead := false }
  else
    match successData with
    | some sd =>
        if sd.decodeOk then { ok := true, err := none, bodyRead := true }
        else { ok := true, err := some .decodeSuccessData, bodyRead := true }
    | none => { ok := true, err := none, bodyRead := false }

/-- decodeFile is the file/CSV codec (Go `decodeFile`).  It takes no error
sink.  On status ≥ 400 it builds the `"%d:%s"` error.  On status < 400
with a success sink, the sink must pass the `io.Writer` type assertion
(checked before any read of the body), then `io.Copy` streams the body
into it; a copy failure still returns `true`. -/
def decodeFile (resp : HttpResponse) (successData : Option Sink) : DecodeOutcome :=
  if 400 ≤ resp.statusCode then
    { ok := false, err := some (.httpError resp.statusCode resp.body), bodyRead := false }
  else
    match successData with
    | some sd =>
        if !sd.isWriter then { ok := false, err := some .invalidSinkType, bodyRead := false }
        else if sd.copyOk then { ok := true, err := none, bodyRead := true }
        else { ok := true, err := some .copyError, bodyRead := true }
    | none => { ok := true, err := none, bodyRead := false }

/-- ExecOutcome is the `(bool, error)` pair Execute returns, with two
instrumentation flags: `dispatched` records whether `c.client.Do` was
invoked, `bodyRead` whether any codec read the response body. -/
structure ExecOutcome where
  ok : Bool
  err : Option GoError
  dispatched : Bool
  bodyRead : Bool
deriving DecidableEq, Repr

/-- Execute makes the given Request, optionally decoding the response into the
given successData and/or errorData (Go `Client.Execute`).  `doResult`
models the outcome of `c.client.Do(req.Request)` — `none` is a transport
failure — which the Go code performs first, before the content-type
switch.  The switch dispatches on `req.api.contentType`: ApplicationJSON
to decodeJSON, TextCSV to decodeFile, anything else to the
`"content type %q not implemented"` error. -/
def Client.Execute (doResult : Option HttpResponse) (req : Request)
    (successData errorData : Option Sink) : ExecOutcome :=
  match doResult with
  | none => { ok := false, err := some .transportError, dispatched := true, bodyRead := false }
  | some resp =>
    if req.api.contentType = ApplicationJSON then
      let d := decodeJSON resp successData errorData
      { ok := d.ok, err := d.err, dispatched := true, bodyRead := d.bodyRead }
    else if req.api.contentType = TextCSV then
      let d := decodeFile resp successData
      { ok := d.ok, err := d.err, dispatched := true, bodyRead := d.bodyRead }
    else
      { ok := false, err := some (.unimplementedContentType req.api.contentType),
        dispatched := true, bodyRead := false }

/-- Concrete fixtures used by witnesses and counterexamples. -/
def jsonAPI : API := { discoverer := NewDirect "http://svc", contentType := ApplicationJSON }

/-- csvAPI is a registered API with the text/csv content type. -/
def csvAPI : API := { discoverer := NewDirect "http://svc", contentType := TextCSV }

/-- xmlAPI is a registered API with a content type no codec implements. -/
def xmlAPI : API := { discoverer := NewDirect "http://svc", contentType := "text/xml" }

/-- jsonRequestEx is a concrete Request targeting a JSON API. -/
def jsonRequestEx : Request :=
  { api := jsonAPI, userAgent := "",
    httpReq := { method := "GET", url := "http://svc/p".toList, hasBody := false, headers := [] } }

/-- csvRequestEx is a concrete Request targeting a CSV API. -/
def csvRequestEx : Request :=
  { api := csvAPI, userAgent := "",
    httpReq := { method := "GET", url := "http://svc/p".toList, hasBody := false, headers := [] } }

/-- xmlRequestEx is a concrete Request targeting the unimplemented content type. -/
def xmlRequestEx : Request :=
  { api := xmlAPI, userAgent := "",
    httpReq := { method := "GET", url := "http://svc/p".toList, hasBody := false, headers := [] } }

/-- badDecodeSink is a sink on which the JSON decode of the current body fails. -/
def badDecodeSink : Sink := { isWriter := false, decodeOk := false, copyOk := false }

/-- exClient is a concrete Client with one registered JSON API named a. -/
def exClient : Client :=
  { name := "svc", clientPtr := defaultClientPtr, apis := [("a", jsonAPI)] }

/-- Helper: the head of a dropWhile result does not satisfy the predicate. -/
theorem head_dropWhile_eq_false (p : Char → Bool) :
    ∀ (l : List Char) (a : Char), (l.dropWhile p).head? = some a → p a = false := by
  intro l
  induction l with
  | nil => intro a h; simp [List.dropWhile] at h
  | cons x xs ih =>
    intro a h
    by_cases hx : p x
    · rw [List.dropWhile_cons_of_pos hx] at h
      exact ih a h
    · rw [List.dropWhile_cons_of_neg hx] at h
      simp at h
      rw [← h]
      exact eq_false_of_ne_true hx

/-- Helper: dropWhile on the equality predicate removes a replicate prefix. -/
theorem exists_replicate_dropWhile (c : Char) (l : List Char) :
    ∃ n, l = List.replicate n c ++ l.dropWhile (fun x => x == c) := by
  refine ⟨(l.takeWhile (fun x => x == c)).length, ?_⟩
  have htake : l.takeWhile (fun x => x == c)
      = List.replicate (l.takeWhile (fun x => x == c)).length c := by
    apply List.eq_replicate_of_mem
    intro b hb
    have := List.mem_takeWhile_imp hb
    simpa using this
  conv_lhs => rw [← List.takeWhile_append_dropWhile (fun x => x == c) l]
  rw [← htake]

/-- Helper: trimLeft keeps no leading trimmed character. -/
theorem trimLeft_head_ne (c : Char) (l : List Char) :
    (trimLeft c l).head? ≠ some c := by
  intro h
  have := head_dropWhile_eq_false (fun x => x == c) l c h
  simp at this

/-- Helper: trimRight keeps no trailing trimmed character. -/
theorem trimRight_getLast_ne (c : Char) (l : List Char) :
    (trimRight c l).getLast? ≠ some c := by
  intro h
  rw [trimRight, List.getLast?_reverse] at h
  have := head_dropWhile_eq_false (fun x => x == c) l.reverse c h
  simp at this

/-- Helper: trimRight removes exactly a replicate suffix of the trimmed character. -/
theorem exists_replicate_trimRight (c : Char) (l : List Char) :
    ∃ n, l = trimRight c l ++ List.replicate n c := by
  obtain ⟨n, hn⟩ := exists_replicate_dropWhile c l.reverse
  refine ⟨n, ?_⟩
  have := congrArg List.reverse hn
  simpa [trimRight, List.reverse_replicate] using this

/-- Helper: trimLeft removes exactly a replicate prefix of the trimmed character. -/
theorem exists_replicate_trimLeft (c : Char) (l : List Char) :
    ∃ m, l = List.replicate m c ++ trimLeft c l :=
  exists_replicate_dropWhile c l

/-- Helper: request options only set the userAgent field, never the embedded
http request. -/
theorem foldl_requestOptions_httpReq (opts : List RequestOption) :
    ∀ r : Request, (opts.foldl (fun r o => applyRequestOption o r) r).httpReq = r.httpReq := by
  induction opts with
  | nil => intro r; rfl
  | cons o os ih =>
    intro r
    cases o with
    | withUserAgent ua => exact ih { r with userAgent := ua }

/-- C2: for every client and every path string, a request built against a
registered API has URL equal to the API base URL with all trailing slashes
removed, then a single separating slash, then the path with all leading
slashes removed; the trimmed base ends in no slash and the trimmed path
starts with none, so exactly one slash separates them. -/
theorem newRequest_url_one_separating_slash (c : Client) (apiName method p : String)
    (hasBody : Bool) (opts : List RequestOption) (api : API)
    (hapi : c.apis.lookup apiName = some api) :
    ∃ r, c.NewRequest apiName method p hasBody opts = Except.ok r ∧
      r.httpReq.url = trimRight '/' api.URL.toList ++ '/' :: trimLeft '/' p.toList ∧
      (trimRight '/' api.URL.toList).getLast? ≠ some '/' ∧
      (trimLeft '/' p.toList).head? ≠ some '/' ∧
      (∃ n, api.URL.toList = trimRight '/' api.URL.toList ++ List.replicate n '/') ∧
      (∃ m, p.toList = List.replicate m '/' ++ trimLeft '/' p.toList) := by
  refine ⟨?_, ?_, ?_, ?_, ?_, ?_, ?_⟩
  case _ =>
    exact (List.foldl (fun r o => applyRequestOption o r)
      { api := api, userAgent := "",
        httpReq :=
          { method := method, url := composeURL api.URL.toList p.toList, hasBody := hasBody,
            headers :=
              headerSet
                (if hasBody then headerSet [] "Content-Type" api.contentType else [])
                "User-Agent" ("kpurdon/apir (for " ++ c.name ++ ")") } } opts)
  case _ =>
    rw [Client.NewRequest, hapi]
    cases hasBody <;> rfl
  case _ =>
    rw [foldl_requestOptions_httpReq]
    rfl
  case _ => exact trimRight_getLast_ne '/' api.URL.toList
  case _ => exact trimLeft_head_ne '/' p.toList
  case _ => exact exists_replicate_trimRight '/' api.URL.toList
  case _ => exact exists_replicate_trimLeft '/' p.toList

/-- C2 witness at a concrete client, API and slash-heavy path. -/
theorem newRequest_url_one_separating_slash_witness :
    ∃ r, exClient.NewRequest "a" "GET" "//y//" true [] = Except.ok r ∧
      r.httpReq.url = trimRight '/' jsonAPI.URL.toList ++ '/' :: trimLeft '/' "//y//".toList ∧
      (trimRight '/' jsonAPI.URL.toList).getLast? ≠ some '/' ∧
      (trimLeft '/' "//y//".toList).head? ≠ some '/' ∧
      (∃ n, jsonAPI.URL.toList = trimRight '/' jsonAPI.URL.toList ++ List.replicate n '/') ∧
      (∃ m, ("//y//" : String).toList = List.replicate m '/' ++ trimLeft '/' "//y//".toList) :=
  newRequest_url_one_separating_slash exClient "a" "GET" "//y//" true [] jsonAPI (by decide)

/-- C5: registering an API name already present in the registry fails with the
already-initialized panic message (never silently overwritten), and the
registry mapping after the failed registration equals the mapping before it. -/
theorem mustAddAPI_duplicate_fails_and_preserves_registry (c : Client) (name : String)
    (d : Direct) (opts : List APIOption) (h : (c.apis.lookup name).isSome) :
    (c.MustAddAPI name d opts).2 = some ("api " ++ name ++ " already initialized") ∧
    (c.MustAddAPI name d opts).1.apis = c.apis := by
  simp [Client.MustAddAPI, h]

/-- C5 witness: re-registering the name a on the example client fails and
leaves the registry unchanged. -/
theorem mustAddAPI_duplicate_witness :
    (exClient.MustAddAPI "a" (NewDirect "http://other") []).2 =
      some ("api " ++ "a" ++ " already initialized") ∧
    (exClient.MustAddAPI "a" (NewDirect "http://other") []).1.apis = exClient.apis :=
  mustAddAPI_duplicate_fails_and_preserves_registry exClient "a" (NewDirect "http://other") []
    (by decide)

/-- Helper: the boolean a JSON decode returns is exactly the status test. -/
theorem decodeJSON_ok (resp : HttpResponse) (sd ed : Option Sink) :
    (decodeJSON resp sd ed).ok = decide (resp.statusCode < 400) := by
  unfold decodeJSON
  by_cases hge : 400 ≤ resp.statusCode
  · rw [if_pos hge]
    cases ed with
    | none => simp [Nat.not_lt.mpr hge]
    | some e => by_cases he : e.decodeOk <;> simp [he, Nat.not_lt.mpr hge]
  · rw [if_neg hge]
    have hlt : resp.statusCode < 400 := Nat.lt_of_not_le hge
    cases sd with
    | none => simp [hlt]
    | some s => by_cases hs : s.decodeOk <;> simp [hs, hlt]

/-- C1 (amended): for a JSON content type, the boolean result of execute is
true iff the transport delivered the request and the response status code is
below 400 — success-payload decode failure does not affect the boolean. -/
theorem execute_ok_iff_delivered_and_status_below_400 (doResult : Option HttpResponse)
    (req : Request) (sd ed : Option Sink) (h : req.api.contentType = ApplicationJSON) :
    (Client.Execute doResult req sd ed).ok = true ↔
      ∃ resp, doResult = some resp ∧ resp.statusCode < 400 := by
  cases doResult with
  | none => simp [Client.Execute]
  | some resp => simp [Client.Execute, h, decodeJSON_ok]

/-- C1 witness: a delivered 200 JSON response whose success payload fails to
decode still has a true boolean, matching the amended equivalence. -/
theorem execute_ok_iff_witness :
    (Client.Execute (some { statusCode := 200, body := "x" }) jsonRequestEx
        (some badDecodeSink) none).ok = true ↔
      ∃ resp, (some { statusCode := 200, body := "x" } : Option HttpResponse) = some resp ∧
        resp.statusCode < 400 :=
  execute_ok_iff_delivered_and_status_below_400 (some { statusCode := 200, body := "x" })
    jsonRequestEx (some badDecodeSink) none (by decide)

/-- C1 counterexample: on a delivered 200 JSON response with a success sink
whose decode fails, execute pairs the boolean true with a decode error — the
combination the claim says is never constructed. -/
theorem execute_constructs_true_with_decode_error :
    badDecodeSink.decodeOk = false ∧
    (Client.Execute (some { statusCode := 200, body := "x" }) jsonRequestEx
        (some badDecodeSink) none).ok = true ∧
    (Client.Execute (some { statusCode := 200, body := "x" }) jsonRequestEx
        (some badDecodeSink) none).err = some GoError.decodeSuccessData := by
  decide

/-- C3: for a JSON response with status at least 400, execute with an error
sink decodes into it and returns false with no error on decode success and
false with a decode error on decode failure; with no error sink it returns
false with an HTTPError carrying the raw status and body, without reading
the response body. -/
theorem execute_json_error_status_paths (resp : HttpResponse) (req : Request)
    (sd : Option Sink) (e : Sink) (hct : req.api.contentType = ApplicationJSON)
    (hst : 400 ≤ resp.statusCode) :
    Client.Execute (some resp) req sd (some e) =
      { ok := false, err := if e.decodeOk then none else some GoError.decodeErrorData,
        dispatched := true, bodyRead := true } ∧
    Client.Execute (some resp) req sd none =
      { ok := false, err := some (GoError.httpError resp.statusCode resp.body),
        dispatched := true, bodyRead := false } := by
  constructor
  · by_cases he : e.decodeOk <;> simp [Client.Execute, hct, decodeJSON, hst, he]
  · simp [Client.Execute, hct, decodeJSON, hst]

/-- C3 witness at a concrete 500 JSON response. -/
theorem execute_json_error_status_paths_witness :
    Client.Execute (some { statusCode := 500, body := "oops" }) jsonRequestEx none
        (some badDecodeSink) =
      { ok := false, err := if badDecodeSink.decodeOk then none
          else some GoError.decodeErrorData,
        dispatched := true, bodyRead := true } ∧
    Client.Execute (some { statusCode := 500, body := "oops" }) jsonRequestEx none none =
      { ok := false, err := some (GoError.httpError 500 "oops"),
        dispatched := true, bodyRead := false } :=
  execute_json_error_status_paths { statusCode := 500, body := "oops" } jsonRequestEx none
    badDecodeSink (by decide) (by decide)

/-- C4: for a JSON response with status below 400, execute with a success sink
returns true with no error on decode success and true with a decode error on
decode failure; with no success sink it returns true with no error. -/
theorem execute_json_success_status_paths (resp : HttpResponse) (req : Request)
    (ed : Option Sink) (s : Sink) (hct : req.api.contentType = ApplicationJSON)
    (hst : resp.statusCode < 400) :
    Client.Execute (some resp) req (some s) ed =
      { ok := true, err := if s.decodeOk then none else some GoError.decodeSuccessData,
        dispatched := true, bodyRead := true } ∧
    Client.Execute (some resp) req none ed =
      { ok := true, err := none, dispatched := true, bodyRead := false } := by
  have hge : ¬ 400 ≤ resp.statusCode := Nat.not_le.mpr hst
  constructor
  · by_cases hs : s.decodeOk <;> simp [Client.Execute, hct, decodeJSON, hge, hs]
  · simp [Client.Execute, hct, decodeJSON, hge]

/-- C4 witness at a concrete 200 JSON response. -/
theorem execute_json_success_status_paths_witness :
    Client.Execute (some { statusCode := 200, body := "x" }) jsonRequestEx
        (some badDecodeSink) none =
      { ok := true, err := if badDecodeSink.decodeOk then none
          else some GoError.decodeSuccessData,
        dispatched := true, bodyRead := true } ∧
    Client.Execute (some { statusCode := 200, body := "x" }) jsonRequestEx none none =
      { ok := true, err := none, dispatched := true, bodyRead := false } :=
  execute_json_success_status_paths { statusCode := 200, body := "x" } jsonRequestEx none
    badDecodeSink (by decide) (by decide)

/-- Helper: the two recognized content type constants differ. -/
theorem textCSV_ne_applicationJSON : TextCSV ≠ ApplicationJSON := by decide

/-- C6: for a CSV content type response with status at least 400, execute
returns false with an HTTPError carrying the raw status and body, for every
error sink (supplied or not), and never reads the body into any sink. -/
theorem execute_csv_error_status_httpError (resp : HttpResponse) (req : Request)
    (sd ed : Option Sink) (hct : req.api.contentType = TextCSV)
    (hst : 400 ≤ resp.statusCode) :
    Client.Execute (some resp) req sd ed =
      { ok := false, err := some (GoError.httpError resp.statusCode resp.body),
        dispatched := true, bodyRead := false } := by
  simp [Client.Execute, hct, textCSV_ne_applicationJSON, decodeFile, hst]

/-- C6 witness at a concrete 404 CSV response with an error sink supplied. -/
theorem execute_csv_error_status_httpError_witness :
    Client.Execute (some { statusCode := 404, body := "no" }) csvRequestEx
        (some badDecodeSink) (some badDecodeSink) =
      { ok := false, err := some (GoError.httpError 404 "no"),
        dispatched := true, bodyRead := false } :=
  execute_csv_error_status_httpError { statusCode := 404, body := "no" } csvRequestEx
    (some badDecodeSink) (some badDecodeSink) (by decide) (by decide)

/-- C7: for a CSV content type response with status below 400 and a success
sink, a sink failing the writable check yields false with InvalidSinkType and
no body read; a writable sink whose stream copy fails part-way yields true
with a copy error; a complete copy yields true with no error. -/
theorem execute_csv_success_status_sink_paths (resp : HttpResponse) (req : Request)
    (ed : Option Sink) (s : Sink) (hct : req.api.contentType = TextCSV)
    (hst : resp.statusCode < 400) :
    (s.isWriter = false →
      Client.Execute (some resp) req (some s) ed =
        { ok := false, err := some GoError.invalidSinkType,
          dispatched := true, bodyRead := false }) ∧
    (s.isWriter = true → s.copyOk = false →
      Client.Execute (some resp) req (some s) ed =
        { ok := true, err := some GoError.copyError, dispatched := true, bodyRead := true }) ∧
    (s.isWriter = true → s.copyOk = true →
      Client.Execute (some resp) req (some s) ed =
        { ok := true, err := none, dispatched := true, bodyRead := true }) := by
  have hge : ¬ 400 ≤ resp.statusCode := Nat.not_le.mpr hst
  refine ⟨?_, ?_, ?_⟩
  · intro hw
    simp [Client.Execute, hct, textCSV_ne_applicationJSON, decodeFile, hge, hw]
  · intro hw hc
    simp [Client.Execute, hct, textCSV_ne_applicationJSON, decodeFile, hge, hw, hc]
  · intro hw hc
    simp [Client.Execute, hct, textCSV_ne_applicationJSON, decodeFile, hge, hw, hc]

/-- writerFailSink is a writable sink on which the stream copy fails part-way. -/
def writerFailSink : Sink := { isWriter := true, decodeOk := false, copyOk := false }

/-- C7 witness: a concrete 200 CSV response streamed into a writable sink whose
copy fails part-way returns true with a copy error. -/
theorem execute_csv_success_status_sink_paths_witness :
    Client.Execute (some { statusCode := 200, body := "x" }) csvRequestEx
        (some writerFailSink) none =
      { ok := true, err := some GoError.copyError, dispatched := true, bodyRead := true } :=
  (execute_csv_success_status_sink_paths { statusCode := 200, body := "x" } csvRequestEx none
    writerFailSink (by decide) (by decide)).2.1 rfl rfl

/-- C8: evaluating the request builder at a concrete client with the
per-request user-agent override option shows the userAgent field of the
wrapper struct is set to the caller string while the User-Agent header of
the built http request still holds the default template value — the
override never reaches the header. -/
theorem withUserAgent_does_not_replace_header :
    (exClient.NewRequest "a" "GET" "/p" false [RequestOption.withUserAgent "custom"]).map
        (fun r => (r.userAgent, headerGet r.httpReq.headers "User-Agent")) =
      Except.ok ("custom", some "kpurdon/apir (for svc)") := by
  rfl

/-- C9 (amended): for any delivered response on an API whose content type is
neither JSON nor CSV, execute returns false with UnimplementedContentType and
never reads the response body — but only after the request has already been
dispatched through the transport. -/
theorem execute_unimplemented_content_type (resp : HttpResponse) (req : Request)
    (sd ed : Option Sink) (h1 : req.api.contentType ≠ ApplicationJSON)
    (h2 : req.api.contentType ≠ TextCSV) :
    Client.Execute (some resp) req sd ed =
      { ok := false, err := some (GoError.unimplementedContentType req.api.contentType),
        dispatched := true, bodyRead := false } := by
  simp [Client.Execute, h1, h2]

/-- C9 witness at a concrete text/xml request and delivered 200 response. -/
theorem execute_unimplemented_content_type_witness :
    Client.Execute (some { statusCode := 200, body := "b" }) xmlRequestEx none none =
      { ok := false, err := some (GoError.unimplementedContentType
          xmlRequestEx.api.contentType),
        dispatched := true, bodyRead := false } :=
  execute_unimplemented_content_type { statusCode := 200, body := "b" } xmlRequestEx none none
    (by decide) (by decide)

/-- C9 counterexample: at a concrete text/xml request, the
UnimplementedContentType outcome coexists with the transport dispatch having
happened, and a transport failure on the same request surfaces as a transport
error rather than the content type error — so the failure is not raised
before the request is dispatched. -/
theorem unimplemented_content_type_after_dispatch :
    (Client.Execute (some { statusCode := 200, body := "b" }) xmlRequestEx none none).err =
      some (GoError.unimplementedContentType "text/xml") ∧
    (Client.Execute (some { statusCode := 200, body := "b" }) xmlRequestEx none none).dispatched
      = true ∧
    (Client.Execute none xmlRequestEx none none).err = some GoError.transportError := by
  decide

/-- Helper: client options other than WithClient and WithRetry leave the
client pointer unchanged through the option fold. -/
theorem foldl_clientOptions_ptr (opts : List ClientOption) :
    ∀ (c : Client) (w : World),
      (∀ o ∈ opts, o ≠ ClientOption.withRetry ∧ ∀ p, o ≠ ClientOption.withClient p) →
      (opts.foldl (fun cw o => applyClientOption o cw) (c, w)).1.clientPtr = c.clientPtr := by
  induction opts with
  | nil => intro c w _; rfl
  | cons o os ih =>
    intro c w h
    have ho := h o (List.mem_cons_self o os)
    have hos : ∀ o' ∈ os, o' ≠ ClientOption.withRetry ∧
        ∀ p, o' ≠ ClientOption.withClient p :=
      fun o' ho' => h o' (List.mem_cons_of_mem o ho')
    cases o with
    | withClient p => exact absurd rfl (ho.2 p)
    | withRetry => exact absurd rfl ho.1
    | withTimeout t =>
      simp only [List.foldl_cons, applyClientOption]
      exact ih c _ hos

/-- C10: a Client built by NewClient with no WithClient or WithRetry option
points at the process-global default HTTP client, and applying WithTimeout to
it writes the timeout of that shared object, so every other client that
points at the default HTTP client observes the new timeout. -/
theorem newClient_default_shared_withTimeout_global (name : String)
    (opts : List ClientOption) (w : World) (t : Int) (c2 : Client)
    (hopts : ∀ o ∈ opts, o ≠ ClientOption.withRetry ∧ ∀ p, o ≠ ClientOption.withClient p)
    (hc2 : c2.clientPtr = defaultClientPtr) :
    (NewClient name opts w).1.clientPtr = defaultClientPtr ∧
    ((applyClientOption (ClientOption.withTimeout t) (NewClient name opts w)).2.heap
        c2.clientPtr).timeout = t := by
  have h1 : (NewClient name opts w).1.clientPtr = defaultClientPtr :=
    foldl_clientOptions_ptr opts _ w hopts
  refine ⟨h1, ?_⟩
  rcases hNC : NewClient name opts w with ⟨c1, w1⟩
  rw [hNC] at h1
  simp only [applyClientOption, heapUpdate]
  rw [hc2, h1]
  simp

/-- w0 is a concrete initial heap of HTTP client objects. -/
def w0 : World := { heap := fun _ => { timeout := 0 }, next := 1 }

/-- C10 witness: a concrete optionless client shares the default HTTP client,
and setting its timeout to 5 is observed through the example client that also
points at the default HTTP client. -/
theorem newClient_default_shared_withTimeout_global_witness :
    (NewClient "svc" [] w0).1.clientPtr = defaultClientPtr ∧
    ((applyClientOption (ClientOption.withTimeout 5) (NewClient "svc" [] w0)).2.heap
        exClient.clientPtr).timeout = 5 :=
  newClient_default_shared_withTimeout_global "svc" [] w0 5 exClient
    (by simp) rfl

end Apir
